import Mathlib

/-!
NHANES CHD study — formal model of the harmonization and estimation core

Shallow embedding of the mapping/derivation/estimation core of the NHANES
CHD repository (scripts `02_harmonize_variables.py`,
`03_statistical_analysis.py`, `06_nhanes_iii_harmonize.py`).

Pandas `NaN` values are modelled as `Option.none` over exact rationals `ℚ`.
A pandas elementwise comparison such as `series == c` or `series >= c`
evaluates to `False` on `NaN`; the helpers `oeq` and `oge` reproduce that.
A boolean mask converted with `.astype(float)` always yields a definite
`0.0`/`1.0` (never `NaN`); the embedding mirrors this by wrapping such
results in `some`.
-/

namespace NHANES

/-- Pandas elementwise `== c`: `NaN == c` is `False`. -/
def oeq (x : Option ℚ) (c : ℚ) : Bool :=
  match x with
  | some v => decide (v = c)
  | none => false

/-- Pandas elementwise `>= c`: `NaN >= c` is `False`. -/
def oge (x : Option ℚ) (c : ℚ) : Bool :=
  match x with
  | some v => decide (c ≤ v)
  | none => false

/-- Python `int()` on a float value: truncation toward zero. -/
def pyInt (q : ℚ) : ℤ :=
  if 0 ≤ q then ⌊q⌋ else ⌈q⌉

/-!
Derived Variable Calculator (`02_harmonize_variables.py`)

Each pandas column function becomes a per-record function; an absent source
column (`df.get(col, NaN-series)`) means the corresponding argument is
`none` for every record.
-/

/-- Embeds `create_chd_composite` from `02_harmonize_variables.py` (lines 168-190),
per record.  The code initializes the composite to `NaN`, then assigns `1`
on the `any_yes` mask and afterwards `0` on the `all_no` mask, so the
`all_no` assignment is last; the two masks are disjoint. -/
def create_chd_composite (chd angina mi : Option ℚ) : Option ℚ :=
  if oeq chd 2 && oeq angina 2 && oeq mi 2 then some 0
  else if oeq chd 1 || oeq angina 1 || oeq mi 1 then some 1
  else none

/-- The CHD composite of `harmonize_nhanes_iii` in `06_nhanes_iii_harmonize.py`
(lines 75-79): same masks, same assignment order (`any_yes` then `all_no`). -/
def chd_composite_iii (had1 had2 had3 : Option ℚ) : Option ℚ :=
  if oeq had1 2 && oeq had2 2 && oeq had3 2 then some 0
  else if oeq had1 1 || oeq had2 1 || oeq had3 1 then some 1
  else none

/-- Embeds `calculate_ldl` from `02_harmonize_variables.py` (lines 193-207), per
record: `ldl = tc - hdl - tg/5` with NaN propagation, then the mask
`ldl[tg >= 400] = NaN`. -/
def calculate_ldl (tc hdl tg : Option ℚ) : Option ℚ :=
  let ldl : Option ℚ := do
    let t ← tc
    let h ← hdl
    let g ← tg
    pure (t - h - g / 5)
  if oge tg 400 then none else ldl

/-- Pandas row-wise `mean(axis=1)` with default `skipna`: mean over the
non-missing entries, `NaN` when none are present.  An empty reading-column
list (`if sbp_cols else NaN-series`) is the `[]` case. -/
def omean (xs : List (Option ℚ)) : Option ℚ :=
  let vals := xs.filterMap id
  if vals.length = 0 then none else some (vals.sum / vals.length)

/-- Embeds `define_hypertension` from `02_harmonize_variables.py` (lines 210-227),
per record: `((mean_sbp >= 130) | (mean_dbp >= 80) | (bp_med == 1)).astype(float)`.
The `.astype(float)` makes the output a definite `0.0`/`1.0`, never `NaN`. -/
def define_hypertension (sbps dbps : List (Option ℚ)) (bp_med : Option ℚ) : Option ℚ :=
  some (if oge (omean sbps) 130 || oge (omean dbps) 80 || oeq bp_med 1 then 1 else 0)

/-- Embeds `define_diabetes` from `02_harmonize_variables.py` (lines 230-246), per
record. -/
def define_diabetes (hba1c glucose insulin oral_med diabetes_told : Option ℚ) : Option ℚ :=
  some (if oge hba1c (13/2) || oge glucose 126 || oeq insulin 1 || oeq oral_med 1 ||
        oeq diabetes_told 1 then 1 else 0)

/-- Embeds `define_hyperlipidemia` from `02_harmonize_variables.py` (lines 249-258),
per record. -/
def define_hyperlipidemia (tchol ldl_calc : Option ℚ) : Option ℚ :=
  some (if oge tchol 200 || oge ldl_calc 130 then 1 else 0)

/-- Embeds `define_obesity` from `02_harmonize_variables.py` (lines 261-264), per
record: `(bmi >= 30).astype(float)`. -/
def define_obesity (bmi : Option ℚ) : Option ℚ :=
  some (if oge bmi 30 then 1 else 0)

/-- Embeds `define_smoking_status` from `02_harmonize_variables.py` (lines 267-285),
per record.  The code initializes to `NaN` and assigns Never (3), then
Current (1), then Former (2); the three masks are pairwise disjoint and the
later assignment wins, so the Former mask is checked first here. -/
def define_smoking_status (smoke_100 smoke_now : Option ℚ) : Option ℚ :=
  if oeq smoke_100 1 && oeq smoke_now 3 then some 2
  else if oeq smoke_100 1 && (oeq smoke_now 1 || oeq smoke_now 2) then some 1
  else if oeq smoke_100 2 then some 3
  else none

/-!
Survey-Weighted Estimator (`03_statistical_analysis.py`)

A record enters the estimator as its outcome column value and its weight
column value (both possibly `NaN`).
-/

/-- One record as seen by the estimator: `(outcome, weight)` column values. -/
structure SRow where
  outcome : Option ℚ
  weight : Option ℚ
deriving DecidableEq

/-- The dict returned by `calculate_survey_weighted_prevalence`.  In the
empty-input branch the code returns a dict without the `n_cases` key; an
absent key and a `NaN` value are both modelled as `none`. -/
structure EstimationResult where
  prevalence : Option ℚ
  se : Option ℝ
  ci_low : Option ℝ
  ci_high : Option ℝ
  n : ℕ
  n_cases : Option ℤ

/-- Embeds `df[[outcome, weight]].dropna()` from line 46: keep the records whose
outcome and weight are both non-missing.  No weight-positivity condition
appears here. -/
def valid (df : List SRow) : List (ℚ × ℚ) :=
  df.filterMap (fun r =>
    match r.outcome, r.weight with
    | some o, some w => some (o, w)
    | _, _ => none)

/-- Embeds `calculate_survey_weighted_prevalence` from `03_statistical_analysis.py`
(lines 33-72).  Fields in order: prevalence, se, ci_low, ci_high, n,
n_cases. -/
noncomputable def calculate_survey_weighted_prevalence (df : List SRow) : EstimationResult :=
  let v := valid df
  if v.length = 0 then ⟨none, none, none, none, 0, none⟩
  else
    let weighted_sum := (v.map (fun r => r.1 * r.2)).sum
    let total_weight := (v.map (fun r => r.2)).sum
    let prevalence := weighted_sum / total_weight
    let n := v.length
    let se_approx : ℝ := Real.sqrt ((prevalence : ℝ) * (1 - (prevalence : ℝ)) / n)
    ⟨some prevalence, some se_approx,
     some (max 0 ((prevalence : ℝ) - 1.96 * se_approx)),
     some (min 1 ((prevalence : ℝ) + 1.96 * se_approx)),
     n, some (pyInt ((v.map (fun r => r.1)).sum))⟩

/-- Modelled from the spec (§4.4 "Filters to records with non-missing
outcome and strictly positive weight"), for comparison with `valid`, the
filter the code actually performs. -/
def spec_filtered (df : List SRow) : List (ℚ × ℚ) :=
  df.filterMap (fun r =>
    match r.outcome, r.weight with
    | some o, some w => if 0 < w then some (o, w) else none
    | _, _ => none)

/-!
Age-Standardization Module and Era/Subgroup Analyzer
(`03_statistical_analysis.py`)
-/

/-- Embeds `US_STD_2000` from `03_statistical_analysis.py` (lines 15-23): the 2000
US standard population weight for each age bucket, as an ordered mapping. -/
def US_STD_2000 : List (String × ℚ) :=
  [("20-29", 0.1318), ("30-39", 0.1342), ("40-49", 0.1354), ("50-59", 0.0933),
   ("60-69", 0.0640), ("70-79", 0.0463), ("80+", 0.0229)]

/-- The `(prevalence, weight)` pairs visited by the `age_standardize` loop:
one pair per reference bucket whose label is present in the input
mapping. -/
def used (prevalence_by_age : List (String × ℚ)) : List (ℚ × ℚ) :=
  US_STD_2000.filterMap (fun aw =>
    (List.lookup aw.1 prevalence_by_age).map (fun p => (p, aw.2)))

/-- Embeds `age_standardize` from `03_statistical_analysis.py` (lines 75-93): loop
over the reference table, accumulate `prevalence[b] * weight[b]` and the
used reference weight for the buckets present in the input mapping, then
renormalize when `0 < total_weight < 1`. -/
def age_standardize (prevalence_by_age : List (String × ℚ)) : ℚ :=
  let standardized := ((used prevalence_by_age).map (fun pw => pw.1 * pw.2)).sum
  let total_weight := ((used prevalence_by_age).map (fun pw => pw.2)).sum
  if 0 < total_weight ∧ total_weight < 1 then standardized / total_weight
  else standardized

/-- The use of `age_standardize` in `analyze_prevalence_by_era` (line 116):
`age_standardize(age_prev) if age_prev else np.nan` — an empty mapping
yields the `NaN` sentinel. -/
def age_std_prev (prevalence_by_age : List (String × ℚ)) : Option ℚ :=
  if prevalence_by_age = [] then none
  else some (age_standardize prevalence_by_age)

/-- One record as seen by the Era/Subgroup Analyzer: era tag, age bucket
(`pd.cut` yields `NaN` outside the bins), outcome, weight, and the value of
the subgroup column under analysis. -/
structure ARow where
  era : String
  age_group : Option String
  chd_composite : Option ℚ
  weight : Option ℚ
  subgroup_val : Option ℚ

/-- Project an analyzer record to the estimator's view. -/
def toSRow (r : ARow) : SRow :=
  ⟨r.chd_composite, r.weight⟩

/-- The `age_prev` dict built in `analyze_prevalence_by_era`
(`03_statistical_analysis.py` lines 107-113): for each bucket of
`US_STD_2000`, when the era records in that bucket number strictly more
than 30 the bucket maps to the estimator's prevalence on them; otherwise
the bucket is absent. -/
noncomputable def age_prev (era_df : List ARow) : List (String × Option ℚ) :=
  (US_STD_2000.map Prod.fst).filterMap (fun ag =>
    let ag_df := era_df.filter (fun r => r.age_group == some ag)
    if 30 < ag_df.length then
      some (ag, (calculate_survey_weighted_prevalence (ag_df.map toSRow)).prevalence)
    else none)

/-- One row of the output of `analyze_by_subgroup`
(`03_statistical_analysis.py` lines 168-176). -/
structure SubgroupCell where
  era : String
  subgroup : String
  n_total : ℕ
  n_chd : Option ℤ
  prevalence : Option ℚ
  ci_low : Option ℝ
  ci_high : Option ℝ

/-- Embeds `analyze_by_subgroup` from `03_statistical_analysis.py` (lines 153-178):
for each era and each subgroup label, the cell is emitted only when the
era/subgroup slice has strictly more than 50 records.  (The python code
iterates eras in `sorted(unique)` order; deduplication is kept here and the
sort, which only permutes the output rows, is dropped.) -/
noncomputable def analyze_by_subgroup (df : List ARow)
    (subgroup_labels : List (ℚ × String)) : List SubgroupCell :=
  ((df.map (fun r => r.era)).dedup).flatMap (fun era =>
    let era_df := df.filter (fun r => r.era == era)
    subgroup_labels.filterMap (fun vl =>
      let sub_df := era_df.filter (fun r => r.subgroup_val == some vl.1)
      if 50 < sub_df.length then
        let prev := calculate_survey_weighted_prevalence (sub_df.map toSRow)
        some ⟨era, vl.2, sub_df.length, prev.n_cases, prev.prevalence,
              prev.ci_low, prev.ci_high⟩
      else none))

/-!
Theorems
-/

/-- C1: the composite CHD outcome is Positive (1) iff at least one of the
three indicators is Yes (1); Negative (0) iff all three indicators are
present and explicitly No (2); missing in every other case — in particular
a record with two missing indicators and one No is missing, not Negative.
The NHANES III harmonizer computes the identical composite. -/
theorem chd_composite_tri_state (chd angina mi : Option ℚ) :
    (create_chd_composite chd angina mi = some 1 ↔
      chd = some 1 ∨ angina = some 1 ∨ mi = some 1) ∧
    (create_chd_composite chd angina mi = some 0 ↔
      chd = some 2 ∧ angina = some 2 ∧ mi = some 2) ∧
    (create_chd_composite chd angina mi = none ↔
      ¬(chd = some 1 ∨ angina = some 1 ∨ mi = some 1) ∧
      ¬(chd = some 2 ∧ angina = some 2 ∧ mi = some 2)) ∧
    chd_composite_iii chd angina mi = create_chd_composite chd angina mi ∧
    create_chd_composite none (some 2) (some 2) = none := by
  refine ⟨?_, ?_, ?_, rfl, rfl⟩ <;>
    · unfold create_chd_composite oeq
      rcases chd with _ | a <;> rcases angina with _ | b <;> rcases mi with _ | c <;>
        · simp only [Bool.and_eq_true, Bool.or_eq_true, decide_eq_true_eq]
          split_ifs <;> simp_all <;> tauto

/-- C9: smoking status is Never (3) iff the lifetime ≥100-cigarettes
indicator is No (2), regardless of the current-smoking answer; Current (1)
iff lifetime is Yes (1) and the current indicator is every-day (1) or
some-days (2); Former (2) iff lifetime is Yes and the current indicator is
not-at-all (3); and missing for every other combination, including a
missing lifetime indicator. -/
theorem smoking_status_classification (smoke_100 smoke_now : Option ℚ) :
    (define_smoking_status smoke_100 smoke_now = some 3 ↔ smoke_100 = some 2) ∧
    (define_smoking_status smoke_100 smoke_now = some 1 ↔
      smoke_100 = some 1 ∧ (smoke_now = some 1 ∨ smoke_now = some 2)) ∧
    (define_smoking_status smoke_100 smoke_now = some 2 ↔
      smoke_100 = some 1 ∧ smoke_now = some 3) ∧
    (define_smoking_status smoke_100 smoke_now = none ↔
      ¬(smoke_100 = some 2) ∧
      ¬(smoke_100 = some 1 ∧ (smoke_now = some 1 ∨ smoke_now = some 2)) ∧
      ¬(smoke_100 = some 1 ∧ smoke_now = some 3)) ∧
    define_smoking_status none (some 1) = none := by
  refine ⟨?_, ?_, ?_, ?_, rfl⟩ <;>
    · unfold define_smoking_status oeq
      rcases smoke_100 with _ | a <;> rcases smoke_now with _ | b <;>
        · simp only [Bool.and_eq_true, Bool.or_eq_true, decide_eq_true_eq]
          split_ifs <;> simp_all <;> tauto

/-- C8: calculated LDL equals the Friedewald expression
`TC − HDL − TG/5` (with NaN propagation through the arithmetic) whenever
triglycerides are present and `< 400`, and is forced to missing whenever
triglycerides are `≥ 400`, regardless of the arithmetic result. -/
theorem calculate_ldl_friedewald (tc hdl : Option ℚ) (g : ℚ) :
    (g < 400 → calculate_ldl tc hdl (some g) =
      tc.bind (fun t => hdl.bind (fun h => some (t - h - g / 5)))) ∧
    (400 ≤ g → calculate_ldl tc hdl (some g) = none) := by
  constructor
  · intro hlt
    unfold calculate_ldl oge
    rw [if_neg (by simpa using not_le.mpr hlt)]
    rcases tc with _ | t <;> rcases hdl with _ | h <;> rfl
  · intro hge
    unfold calculate_ldl oge
    rw [if_pos (by simpa using hge)]

/-- C8 witness: TC=220, HDL=50, TG=150 gives LDL=140; TG=450 gives LDL
missing. -/
theorem calculate_ldl_friedewald_witness :
    calculate_ldl (some 220) (some 50) (some 150) = some 140 ∧
    calculate_ldl (some 220) (some 50) (some 450) = none := by
  constructor
  · have h := (calculate_ldl_friedewald (some 220) (some 50) 150).1 (by norm_num)
    rw [h]
    norm_num
  · exact (calculate_ldl_friedewald (some 220) (some 50) 450).2 (by norm_num)

/-- C4 counterexample: with the `bmi` source column absent (so the input is
missing on every record), `define_obesity` outputs the definite value `0`
for every record, not a missing value; `define_hypertension`,
`define_diabetes` and `define_hyperlipidemia` behave the same way on absent
source columns, because `(mask).astype(float)` turns a NaN comparison into
`0.0`. -/
theorem derived_booleans_zero_on_missing :
    (define_obesity none = some 0 ∧ define_obesity none ≠ none) ∧
    define_hypertension [] [] none = some 0 ∧
    define_diabetes none none none none none = some 0 ∧
    define_hyperlipidemia none none = some 0 := by
  refine ⟨⟨rfl, by simp [define_obesity, oge]⟩, rfl, rfl, rfl⟩

/-- C4 amended: every §4.3 derived-variable function is total (no
exception) on entirely-missing inputs; the CHD composite, LDL and smoking
status then produce an entirely-missing output, while hypertension,
diabetes, hyperlipidemia and obesity produce the definite value `0`
(false) for every record. -/
theorem derived_missing_propagation :
    create_chd_composite none none none = none ∧
    calculate_ldl none none none = none ∧
    define_smoking_status none none = none ∧
    define_hypertension [] [] none = some 0 ∧
    define_diabetes none none none none none = some 0 ∧
    define_hyperlipidemia none none = some 0 ∧
    define_obesity none = some 0 := by
  exact ⟨rfl, rfl, rfl, rfl, rfl, rfl, rfl⟩

/-- The weights of the buckets actually used form a sublist of the full
reference weight column. -/
lemma used_snd_sublist (m : List (String × ℚ)) :
    ((used m).map (fun pw => pw.2)).Sublist (US_STD_2000.map (fun aw => aw.2)) := by
  unfold used
  generalize US_STD_2000 = ws
  induction ws with
  | nil => simp
  | cons aw t ih =>
    cases h : List.lookup aw.1 m with
    | none => simpa [List.filterMap_cons, h] using ih.cons aw.2
    | some p => simpa [List.filterMap_cons, h] using ih.cons₂ aw.2

/-- Every reference weight is strictly positive. -/
lemma us_std_pos : ∀ x ∈ US_STD_2000.map (fun aw => aw.2), (0:ℚ) < x := by
  intro x hx
  simp only [US_STD_2000, List.map_cons, List.map_nil, List.mem_cons,
    List.not_mem_nil, or_false] at hx
  rcases hx with rfl | rfl | rfl | rfl | rfl | rfl | rfl <;> norm_num

/-- The reference weight actually used is strictly below 1. -/
lemma used_total_lt_one (m : List (String × ℚ)) :
    ((used m).map (fun pw => pw.2)).sum < 1 := by
  refine lt_of_le_of_lt
    (List.Sublist.sum_le_sum (used_snd_sublist m) (fun a ha => (us_std_pos a ha).le)) ?_
  norm_num [US_STD_2000]

/-- When at least one bucket is present, the used reference weight is
strictly positive. -/
lemma used_total_pos (m : List (String × ℚ)) (h : used m ≠ []) :
    0 < ((used m).map (fun pw => pw.2)).sum := by
  apply List.sum_pos
  · intro x hx
    exact us_std_pos x ((used_snd_sublist m).subset hx)
  · simpa using h

/-- C5: age-standardization accumulates `prevalence[b] × referenceWeight[b]`
over the buckets present in the input; the reference weight actually used
is always strictly between 0 and 1 when a bucket is present, so the result
is the weighted sum divided by that partial weight sum; and in the
analyzer, an empty prevalence mapping yields the missing sentinel, not a
number. -/
theorem age_standardize_partial_renormalization (m : List (String × ℚ))
    (h : used m ≠ []) :
    0 < ((used m).map (fun pw => pw.2)).sum ∧
    ((used m).map (fun pw => pw.2)).sum < 1 ∧
    age_standardize m =
      ((used m).map (fun pw => pw.1 * pw.2)).sum / ((used m).map (fun pw => pw.2)).sum ∧
    age_std_prev [] = none := by
  refine ⟨used_total_pos m h, used_total_lt_one m, ?_, rfl⟩
  unfold age_standardize
  rw [if_pos ⟨used_total_pos m h, used_total_lt_one m⟩]

/-- C5 witness: a mapping holding only the 20-29 bucket. -/
theorem age_standardize_partial_renormalization_witness :
    0 < ((used [("20-29", (1:ℚ)/20)]).map (fun pw => pw.2)).sum ∧
    ((used [("20-29", (1:ℚ)/20)]).map (fun pw => pw.2)).sum < 1 ∧
    age_standardize [("20-29", (1:ℚ)/20)] =
      ((used [("20-29", (1:ℚ)/20)]).map (fun pw => pw.1 * pw.2)).sum /
        ((used [("20-29", (1:ℚ)/20)]).map (fun pw => pw.2)).sum ∧
    age_std_prev [] = none := by
  refine age_standardize_partial_renormalization _ ?_
  rw [show used [("20-29", (1:ℚ)/20)] = [((1:ℚ)/20, (0.1318 : ℚ))] from rfl]
  exact List.cons_ne_nil _ _

/-- C3 counterexample: the reference-population weights over the full
bucket set do not sum to 1. -/
theorem us_std_2000_sum_ne_one : (US_STD_2000.map Prod.snd).sum ≠ 1 := by
  norm_num [US_STD_2000]

/-- C3 amended: the reference-population weights over the full bucket set
{20-29, 30-39, 40-49, 50-59, 60-69, 70-79, 80+} sum exactly to 0.6279 (the
adult share of the all-age 2000 US standard population), which is strictly
less than 1, so the age-standardization renormalization branch applies
whenever any bucket is present. -/
theorem us_std_2000_sum : (US_STD_2000.map Prod.snd).sum = 0.6279 ∧
    (US_STD_2000.map Prod.snd).sum < 1 := by
  constructor <;> norm_num [US_STD_2000]

/-- The `valid` filter distributes over list append. -/
lemma valid_append (df₁ df₂ : List SRow) :
    valid (df₁ ++ df₂) = valid df₁ ++ valid df₂ :=
  List.filterMap_append df₁ df₂ _

/-- C2 counterexample: on a two-record input whose first record has outcome
present and weight exactly 0, the estimator's valid count `n` is 2 — the
zero-weight record is not filtered out — while the filter described by the
spec keeps only 1 record. -/
theorem estimator_counts_zero_weight_record :
    (calculate_survey_weighted_prevalence
      [⟨some 1, some 0⟩, ⟨some 0, some 2⟩]).n = 2 ∧
    (spec_filtered [⟨some 1, some 0⟩, ⟨some 0, some 2⟩]).length = 1 := by
  constructor
  · rfl
  · rfl

/-- C2 amended: the estimator filters only on missingness (`dropna`), with
no weight-positivity condition (the pipeline applies `WTMEC2YR > 0` once,
upstream); over the filtered set the point estimate is
`Σ outcome·weight / Σ weight`; appending a zero-weight record leaves the
point estimate unchanged (it contributes 0 to numerator and denominator)
but does increment the valid count `n`. -/
theorem estimator_dropna_point_estimate (df : List SRow) (o : ℚ)
    (h : valid df ≠ []) :
    (calculate_survey_weighted_prevalence df).prevalence =
      some (((valid df).map (fun r => r.1 * r.2)).sum /
            ((valid df).map (fun r => r.2)).sum) ∧
    valid (df ++ [⟨some o, some 0⟩]) = valid df ++ [(o, 0)] ∧
    (calculate_survey_weighted_prevalence (df ++ [⟨some o, some 0⟩])).prevalence =
      (calculate_survey_weighted_prevalence df).prevalence ∧
    (calculate_survey_weighted_prevalence (df ++ [⟨some o, some 0⟩])).n =
      (calculate_survey_weighted_prevalence df).n + 1 := by
  have hval : valid (df ++ [⟨some o, some 0⟩]) = valid df ++ [(o, 0)] := by
    rw [valid_append]; rfl
  have hlen : ¬((valid df).length = 0) := by simpa [List.length_eq_zero] using h
  have hlen2 : ¬((valid (df ++ [⟨some o, some 0⟩])).length = 0) := by
    rw [hval]; simp
  refine ⟨?_, hval, ?_, ?_⟩
  · simp only [calculate_survey_weighted_prevalence, if_neg hlen]
  · simp only [calculate_survey_weighted_prevalence, if_neg hlen, if_neg hlen2, hval]
    simp
  · simp only [calculate_survey_weighted_prevalence, if_neg hlen, if_neg hlen2, hval]
    simp

/-- C2 witness: a concrete one-record input with positive weight. -/
theorem estimator_dropna_point_estimate_witness :
    (calculate_survey_weighted_prevalence [⟨some 1, some 2⟩]).prevalence =
      some (((valid [⟨some 1, some 2⟩]).map (fun r => r.1 * r.2)).sum /
            ((valid [⟨some 1, some 2⟩]).map (fun r => r.2)).sum) ∧
    valid ([⟨some 1, some 2⟩] ++ [⟨some 0, some 0⟩]) = valid [⟨some 1, some 2⟩] ++ [(0, 0)] ∧
    (calculate_survey_weighted_prevalence ([⟨some 1, some 2⟩] ++ [⟨some 0, some 0⟩])).prevalence =
      (calculate_survey_weighted_prevalence [⟨some 1, some 2⟩]).prevalence ∧
    (calculate_survey_weighted_prevalence ([⟨some 1, some 2⟩] ++ [⟨some 0, some 0⟩])).n =
      (calculate_survey_weighted_prevalence [⟨some 1, some 2⟩]).n + 1 := by
  refine estimator_dropna_point_estimate [⟨some 1, some 2⟩] 0 ?_
  rw [show valid [⟨some 1, some 2⟩] = [((1:ℚ), (2:ℚ))] from rfl]
  exact List.cons_ne_nil _ _

/-- A list of rationals that are each 0 or 1 sums to a natural number. -/
lemma sum_zero_one_nat (l : List ℚ) (h : ∀ x ∈ l, x = 0 ∨ x = 1) :
    ∃ k : ℕ, l.sum = (k : ℚ) := by
  induction l with
  | nil => exact ⟨0, by simp⟩
  | cons a t ih =>
    obtain ⟨k, hk⟩ := ih (fun x hx => h x (List.mem_cons_of_mem _ hx))
    rcases h a (List.mem_cons_self a t) with rfl | rfl
    · exact ⟨k, by simp [hk]⟩
    · refine ⟨k + 1, ?_⟩
      push_cast
      rw [List.sum_cons, hk]
      ring

/-- C6: on an empty filtered set the estimator returns, without failing,
the result with sample size zero and the point estimate, standard error,
both confidence bounds and case count all missing; on a non-empty filtered
set it returns the truncated outcome sum as the unweighted case count
alongside the weighted prevalence, and when the outcomes are all 0/1 that
count is exactly the sum of the outcomes. -/
theorem estimator_empty_result_and_case_count (df : List SRow) :
    ((valid df).length = 0 →
      calculate_survey_weighted_prevalence df = ⟨none, none, none, none, 0, none⟩) ∧
    ((valid df).length ≠ 0 →
      (calculate_survey_weighted_prevalence df).n_cases =
        some (pyInt (((valid df).map (fun r => r.1)).sum)) ∧
      (calculate_survey_weighted_prevalence df).prevalence =
        some (((valid df).map (fun r => r.1 * r.2)).sum /
              ((valid df).map (fun r => r.2)).sum) ∧
      ((∀ x ∈ valid df, x.1 = 0 ∨ x.1 = 1) →
        ∃ k : ℕ, (calculate_survey_weighted_prevalence df).n_cases = some (k : ℤ) ∧
          (k : ℚ) = ((valid df).map (fun r => r.1)).sum)) := by
  constructor
  · intro h0
    simp only [calculate_survey_weighted_prevalence, if_pos h0]
  · intro hne
    refine ⟨?_, ?_, ?_⟩
    · simp only [calculate_survey_weighted_prevalence, if_neg hne]
    · simp only [calculate_survey_weighted_prevalence, if_neg hne]
    · intro h01
      obtain ⟨k, hk⟩ := sum_zero_one_nat ((valid df).map (fun r => r.1)) (by
        intro x hx
        obtain ⟨r, hr, rfl⟩ := List.mem_map.mp hx
        exact h01 r hr)
      refine ⟨k, ?_, hk.symm⟩
      simp only [calculate_survey_weighted_prevalence, if_neg hne, hk]
      have : pyInt (k : ℚ) = (k : ℤ) := by
        simp [pyInt, Nat.cast_nonneg]
      rw [this]

/-- C6 witness: an input whose only record has a missing outcome (empty
filtered set), and an input with one fully-present record. -/
theorem estimator_empty_result_and_case_count_witness :
    calculate_survey_weighted_prevalence [⟨none, some 1⟩] =
      ⟨none, none, none, none, 0, none⟩ ∧
    (calculate_survey_weighted_prevalence [⟨some 1, some 2⟩]).n_cases =
      some (pyInt (((valid [⟨some 1, some 2⟩]).map (fun r => r.1)).sum)) := by
  constructor
  · exact (estimator_empty_result_and_case_count [⟨none, some 1⟩]).1 rfl
  · refine ((estimator_empty_result_and_case_count [⟨some 1, some 2⟩]).2 ?_).1
    rw [show (valid [⟨some 1, some 2⟩]).length = 1 from rfl]
    exact one_ne_zero

/-- Pandas-free statement of "the weight value is present and strictly
positive". -/
def wpos (x : Option ℚ) : Bool :=
  match x with
  | some w => decide (0 < w)
  | none => false

/-- Under all-present 0/1 outcomes and positive weights, every filtered
pair has a 0/1 outcome and a positive weight. -/
lemma valid_mem_bounds (df : List SRow)
    (hb : ∀ r ∈ df, r.outcome = some 0 ∨ r.outcome = some 1)
    (hw : ∀ r ∈ df, wpos r.weight = true) :
    ∀ x ∈ valid df, (x.1 = 0 ∨ x.1 = 1) ∧ 0 < x.2 := by
  intro x hx
  rw [valid, List.mem_filterMap] at hx
  obtain ⟨r, hr, hfr⟩ := hx
  have hwr := hw r hr
  rcases hweq : r.weight with _ | w
  · rw [hweq] at hwr; simp [wpos] at hwr
  · rw [hweq] at hwr
    have hwpos : 0 < w := by simpa [wpos] using hwr
    rcases hb r hr with ho | ho <;>
      · rw [ho, hweq] at hfr
        simp only [Option.some.injEq] at hfr
        subst hfr
        simp [hwpos]

/-- Under all-present outcomes and weights, the filtered set of a non-empty
input is non-empty. -/
lemma valid_ne_nil (df : List SRow) (hne : df ≠ [])
    (hb : ∀ r ∈ df, r.outcome = some 0 ∨ r.outcome = some 1)
    (hw : ∀ r ∈ df, wpos r.weight = true) :
    valid df ≠ [] := by
  cases df with
  | nil => exact absurd rfl hne
  | cons r t =>
    have hwr := hw r (List.mem_cons_self r t)
    rcases hweq : r.weight with _ | w
    · rw [hweq] at hwr; simp [wpos] at hwr
    · rcases hb r (List.mem_cons_self r t) with ho | ho <;>
        · rw [valid, List.filterMap_cons, ho, hweq]
          exact List.cons_ne_nil _ _

/-- C10: for a non-empty record set whose outcomes are all 0/1 and whose
weights are all present and strictly positive, the point estimate lies in
[0,1] and lies between the returned confidence bounds:
`0 ≤ ci_low ≤ prevalence ≤ ci_high ≤ 1`. -/
theorem estimator_ci_brackets_prevalence (df : List SRow) (hne : df ≠ [])
    (hb : ∀ r ∈ df, r.outcome = some 0 ∨ r.outcome = some 1)
    (hw : ∀ r ∈ df, wpos r.weight = true) :
    ∃ (p : ℚ) (lo hi : ℝ),
      (calculate_survey_weighted_prevalence df).prevalence = some p ∧
      (calculate_survey_weighted_prevalence df).ci_low = some lo ∧
      (calculate_survey_weighted_prevalence df).ci_high = some hi ∧
      0 ≤ p ∧ p ≤ 1 ∧ 0 ≤ lo ∧ lo ≤ (p : ℝ) ∧ (p : ℝ) ≤ hi ∧ hi ≤ 1 := by
  have hval := valid_ne_nil df hne hb hw
  have hmem := valid_mem_bounds df hb hw
  have hlen : ¬((valid df).length = 0) := by simpa [List.length_eq_zero] using hval
  set l := valid df with hl
  set S := (l.map (fun r => r.1 * r.2)).sum with hS
  set T := (l.map (fun r => r.2)).sum with hT
  have hS0 : 0 ≤ S := by
    apply List.sum_nonneg
    intro a ha
    obtain ⟨x, hx, rfl⟩ := List.mem_map.mp ha
    rcases (hmem x hx).1 with h1 | h1 <;> rw [h1]
    · simp
    · simpa using (hmem x hx).2.le
  have hST : S ≤ T := by
    apply List.sum_le_sum
    intro x hx
    rcases (hmem x hx).1 with h1 | h1 <;> rw [h1]
    · simpa using (hmem x hx).2.le
    · simp
  have hT0 : 0 < T := by
    apply List.sum_pos
    · intro a ha
      obtain ⟨x, hx, rfl⟩ := List.mem_map.mp ha
      exact (hmem x hx).2
    · simpa using hval
  have hp0 : 0 ≤ S / T := div_nonneg hS0 hT0.le
  have hp1 : S / T ≤ 1 := (div_le_one hT0).mpr hST
  have hse : (0:ℝ) ≤ Real.sqrt (((S / T : ℚ) : ℝ) * (1 - ((S / T : ℚ) : ℝ)) / (l.length : ℝ)) :=
    Real.sqrt_nonneg _
  refine ⟨S / T,
    max 0 (((S / T : ℚ) : ℝ) -
      1.96 * Real.sqrt (((S / T : ℚ) : ℝ) * (1 - ((S / T : ℚ) : ℝ)) / (l.length : ℝ))),
    min 1 (((S / T : ℚ) : ℝ) +
      1.96 * Real.sqrt (((S / T : ℚ) : ℝ) * (1 - ((S / T : ℚ) : ℝ)) / (l.length : ℝ))),
    ?_, ?_, ?_, hp0, hp1, le_max_left _ _, ?_, ?_, min_le_left _ _⟩
  · simp only [calculate_survey_weighted_prevalence, if_neg hlen]
  · simp only [calculate_survey_weighted_prevalence, if_neg hlen]
  · simp only [calculate_survey_weighted_prevalence, if_neg hlen]
  · apply max_le
    · exact_mod_cast hp0
    · have : (0:ℝ) ≤ 1.96 * Real.sqrt
          (((S / T : ℚ) : ℝ) * (1 - ((S / T : ℚ) : ℝ)) / (l.length : ℝ)) := by positivity
      linarith
  · apply le_min
    · exact_mod_cast hp1
    · have : (0:ℝ) ≤ 1.96 * Real.sqrt
          (((S / T : ℚ) : ℝ) * (1 - ((S / T : ℚ) : ℝ)) / (l.length : ℝ)) := by positivity
      linarith

/-- C10 witness: the one-record input with outcome 1 and weight 1. -/
theorem estimator_ci_brackets_prevalence_witness :
    ∃ (p : ℚ) (lo hi : ℝ),
      (calculate_survey_weighted_prevalence [⟨some 1, some 1⟩]).prevalence = some p ∧
      (calculate_survey_weighted_prevalence [⟨some 1, some 1⟩]).ci_low = some lo ∧
      (calculate_survey_weighted_prevalence [⟨some 1, some 1⟩]).ci_high = some hi ∧
      0 ≤ p ∧ p ≤ 1 ∧ 0 ≤ lo ∧ lo ≤ (p : ℝ) ∧ (p : ℝ) ≤ hi ∧ hi ≤ 1 := by
  refine estimator_ci_brackets_prevalence [⟨some 1, some 1⟩] ?_ ?_ ?_
  · exact List.cons_ne_nil _ _
  · intro r hr
    rw [List.mem_singleton] at hr
    subst hr
    right
    rfl
  · intro r hr
    rw [List.mem_singleton] at hr
    subst hr
    rfl

/-- C7 counterexample: an era slice with exactly 30 records in the 20-29
age bucket contributes no bucket to age-standardization, and a subgroup
slice with exactly 50 records is suppressed from the subgroup output. -/
theorem analyzer_exact_threshold_suppressed :
    age_prev (List.replicate 30 ⟨"E1", some ("20-29"), some 1, some 1, some 1⟩) = [] ∧
    analyze_by_subgroup (List.replicate 50 ⟨"E1", none, some 1, some 1, some 1⟩)
      [(1, "Male")] = [] := by
  constructor
  · rfl
  · rfl

/-- The keys of a threshold-guarded `filterMap` are the names passing the
threshold. -/
lemma keys_of_threshold_filterMap {β : Type} (names : List String) (k : ℕ)
    (cnt : String → ℕ) (g : String → β) :
    ((names.filterMap (fun ag => if k < cnt ag then some (ag, g ag) else none)).map
      Prod.fst) = names.filter (fun ag => decide (k < cnt ag)) := by
  induction names with
  | nil => rfl
  | cons a t ih => by_cases h : k < cnt a <;> simp [h, ih]

/-- C7 amended: an age bucket contributes to age-standardization iff its
era slice has strictly more than 30 records (a bucket with exactly 30 does
not contribute), and a subgroup/era cell appears in the output iff its
slice has strictly more than 50 records (a cell with exactly 50 is
suppressed); suppressed buckets/cells are omitted from the output, not
zero-filled. -/
theorem analyzer_suppression_thresholds (rows : List ARow) (ag : String)
    (df : List ARow) (labels : List (ℚ × String)) (era lab : String) :
    (ag ∈ (age_prev rows).map Prod.fst ↔
      ag ∈ US_STD_2000.map Prod.fst ∧
        30 < (rows.filter (fun r => r.age_group == some ag)).length) ∧
    ((∃ c ∈ analyze_by_subgroup df labels, c.era = era ∧ c.subgroup = lab) ↔
      era ∈ (df.map (fun r => r.era)).dedup ∧
        ∃ v, (v, lab) ∈ labels ∧
          50 < ((df.filter (fun r => r.era == era)).filter
            (fun r => r.subgroup_val == some v)).length) := by
  constructor
  · have hkeys : (age_prev rows).map Prod.fst =
        (US_STD_2000.map Prod.fst).filter
          (fun ag => decide (30 < (rows.filter (fun r => r.age_group == some ag)).length)) :=
      keys_of_threshold_filterMap (US_STD_2000.map Prod.fst) 30 _ _
    rw [hkeys, List.mem_filter]
    simp
  · constructor
    · rintro ⟨c, hc, hce, hcs⟩
      simp only [analyze_by_subgroup] at hc
      rw [List.mem_flatMap] at hc
      obtain ⟨e, he, hc⟩ := hc
      rw [List.mem_filterMap] at hc
      obtain ⟨vl, hvl, hfvl⟩ := hc
      by_cases h50 : 50 < ((df.filter (fun r => r.era == e)).filter
          (fun r => r.subgroup_val == some vl.1)).length
      · rw [if_pos h50] at hfvl
        rw [Option.some_inj] at hfvl
        subst hfvl
        simp only at hce hcs
        subst hce
        subst hcs
        exact ⟨he, vl.1, by simpa using hvl, h50⟩
      · rw [if_neg h50] at hfvl
        exact absurd hfvl (by simp)
    · rintro ⟨he, v, hvl, h50⟩
      refine ⟨⟨era, lab,
        ((df.filter (fun r => r.era == era)).filter
          (fun r => r.subgroup_val == some v)).length,
        (calculate_survey_weighted_prevalence
          (((df.filter (fun r => r.era == era)).filter
            (fun r => r.subgroup_val == some v)).map toSRow)).n_cases,
        (calculate_survey_weighted_prevalence
          (((df.filter (fun r => r.era == era)).filter
            (fun r => r.subgroup_val == some v)).map toSRow)).prevalence,
        (calculate_survey_weighted_prevalence
          (((df.filter (fun r => r.era == era)).filter
            (fun r => r.subgroup_val == some v)).map toSRow)).ci_low,
        (calculate_survey_weighted_prevalence
          (((df.filter (fun r => r.era == era)).filter
            (fun r => r.subgroup_val == some v)).map toSRow)).ci_high⟩, ?_, rfl, rfl⟩
      simp only [analyze_by_subgroup]
      rw [List.mem_flatMap]
      refine ⟨era, he, ?_⟩
      rw [List.mem_filterMap]
      exact ⟨(v, lab), hvl, by rw [if_pos h50]⟩

end NHANES
